import Mathlib

/-
  Verification development for the AI-Furniture-Recommender semantic
  retrieval subsystem (backend/app/services/vector_store.py,
  embeddings.py, genai.py).

  Modelling conventions:
  - Machine floats are modelled as exact rationals.  The square root inside
    np.linalg.norm is not rational, so wherever the code computes a row
    norm the model takes the norm value as an explicit argument; theorems
    that need the value to actually be the norm carry the hypothesis
    nrm * nrm = normSq row (with 0 <= nrm).
  - sklearn NearestNeighbors.kneighbors on the fitted vectors is modelled
    as an exact k-nearest computation: all cosine distances are ranked in
    ascending distance order and the first k entries are returned.  The
    library leaves the order of equal distances unspecified; the model
    resolves such ties by row index only so that it stays a deterministic,
    executable function.  No theorem below depends on that tie choice:
    the settled claims use only the length of the returned ranking and
    the error behavior around it.
  - File-system state is a record of the three artifact files the store
    touches (vectors.npy, meta.csv, meta.json); numpy load/save and
    persistence failures are modelled with explicit constructors.
-/

namespace Furn

/-! ## Ranking core: vector_store.py lines 111-115 -/

/-- Ordering used to model the neighbor ranking: ascending cosine
distance, ties broken by ascending row index. -/
def nnLE (a b : Nat × ℚ) : Prop :=
  a.2 < b.2 ∨ (a.2 = b.2 ∧ a.1 ≤ b.1)

instance : DecidableRel nnLE := fun a b => by
  unfold nnLE; infer_instance

/-- Model of kneighbors over the whole fitted collection: every row index
paired with its distance, ranked by nnLE. -/
def kneighborsAll (dists : List ℚ) : List (Nat × ℚ) :=
  List.insertionSort nnLE dists.enum

/-- Lines 111-115 of vector_store.py: k = min(max(1, top_k), n); take the
k nearest (row, distance) pairs and convert distance to similarity 1 - d. -/
def searchCore (dists : List ℚ) (top_k : Int) : List (Nat × ℚ) :=
  let k : Int := min (max 1 top_k) (dists.length : Int)
  ((kneighborsAll dists).take k.toNat).map (fun p => (p.1, 1 - p.2))

lemma searchCore_length (dists : List ℚ) (top_k : Int) :
    (searchCore dists top_k).length
      = (min (max 1 top_k) (dists.length : Int)).toNat := by
  unfold searchCore kneighborsAll
  have hlen : (List.insertionSort nnLE dists.enum).length = dists.length := by
    rw [(List.perm_insertionSort nnLE dists.enum).length_eq, List.enum_length]
  simp only [List.length_map, List.length_take, hlen]
  omega

/-! ## VectorStore state: persistence and in-memory structure -/

/-- Content of vectors.npy as np.load sees it: a 2-D array of rows, a 1-D
array (the empty-save edge case, reshaped to (0,0) by the loader), or a
file on which np.load raises. -/
inductive VecFile
  | good (rows : List (List ℚ))
  | flat (xs : List ℚ)
  | corrupt
deriving DecidableEq

/-- The three artifact files under index_dir: vectors.npy, meta.csv (the
catalog snapshot, content never inspected here), meta.json (dim and n). -/
structure Disk where
  vec : Option VecFile
  metaCsv : Option String
  metaJson : Option (Nat × Nat)
deriving DecidableEq

/-- In-memory fields of VectorStore: _vectors, _index (presence only),
_dim, _n. -/
structure Mem where
  vectors : Option (List (List ℚ))
  index : Bool
  dim : Option Nat
  n : Nat
deriving DecidableEq

/-- The state right after __init__ sets the fields (before the load call),
and also the state the except-branch of _load_if_exists resets to. -/
def memEmpty : Mem := ⟨none, false, none, 0⟩

def diskEmpty : Disk := ⟨none, none, none⟩

/-- Lines 40-60, _load_if_exists: return unless both vectors.npy and
meta.csv exist; np.load; a 1-D array is reshaped to (0,0); the index is
fitted only when n is nonzero (otherwise _index keeps its prior value);
any exception resets all four fields. -/
def load_if_exists (d : Disk) (m : Mem) : Mem :=
  if d.vec.isSome && d.metaCsv.isSome then
    match d.vec with
    | some VecFile.corrupt => memEmpty
    | some (VecFile.flat _xs) =>
        { vectors := some [], index := m.index, dim := some 0, n := 0 }
    | some (VecFile.good rows) =>
        { vectors := some rows
          index := if 0 < rows.length then true else m.index
          dim := some (if 0 < rows.length then (rows.headD []).length else 0)
          n := rows.length }
    | none => m
  else m

/-- Line 65, is_built: both vectors.npy and meta.csv exist (meta.json is
not consulted). -/
def is_built (d : Disk) : Bool :=
  d.vec.isSome && d.metaCsv.isSome

/-- The only error search raises (RuntimeError, the NotBuiltError of the
spec taxonomy). -/
inductive VSErr
  | notBuiltError
deriving DecidableEq

instance {ε α : Type} [DecidableEq ε] [DecidableEq α] :
    DecidableEq (Except ε α) := fun x y =>
  match x, y with
  | Except.ok a, Except.ok b =>
      if h : a = b then isTrue (by rw [h])
      else isFalse (by intro hc; cases hc; exact h rfl)
  | Except.error a, Except.error b =>
      if h : a = b then isTrue (by rw [h])
      else isFalse (by intro hc; cases hc; exact h rfl)
  | Except.ok _, Except.error _ => isFalse (by intro hc; cases hc)
  | Except.error _, Except.ok _ => isFalse (by intro hc; cases hc)

/-- Lines 103-104: lazily load when _vectors or _index is None. -/
def lazyMem (d : Disk) (m : Mem) : Mem :=
  if m.vectors.isNone || !m.index then load_if_exists d m else m

/-- Line 105: the raise condition after the lazy load. -/
def notBuiltNow (m : Mem) : Bool :=
  m.vectors.isNone || !m.index || m.n == 0

/-- Lines 98-115, search: lazy load, raise when not built or empty,
otherwise rank all stored vectors by the cosine distance of the query
against each and return the clamped top-k as (row, similarity) pairs.
The distance computation (embedding plus sklearn cosine metric) is
abstracted as the function argument dist applied to the query and each
stored row. -/
def search (d : Disk) (m : Mem) (dist : List ℚ → List ℚ → ℚ)
    (q : List ℚ) (top_k : Int) :
    Except VSErr (List (Nat × ℚ)) × Mem :=
  let m1 := lazyMem d m
  if notBuiltNow m1 then (Except.error VSErr.notBuiltError, m1)
  else (Except.ok (searchCore ((m1.vectors.getD []).map (dist q)) top_k), m1)

/-- Invariant of every reachable Mem: a fitted index implies resident
vectors whose count matches _n and is positive, and no fitted index
implies _n = 0. -/
def WFMem (m : Mem) : Prop :=
  (m.index = true →
    ∃ rows, m.vectors = some rows ∧ m.n = rows.length ∧ 0 < rows.length) ∧
  (m.index = false → m.n = 0)

lemma wf_memEmpty : WFMem memEmpty := by
  constructor
  · intro h; simp [memEmpty] at h
  · intro _; rfl

lemma wf_lazyMem (d : Disk) (m : Mem) (hwf : WFMem m) :
    WFMem (lazyMem d m) := by
  obtain ⟨h1, h2⟩ := hwf
  unfold lazyMem load_if_exists
  by_cases hload : m.vectors.isNone || !m.index
  · simp only [hload, if_true]
    have hidx : m.index = false := by
      cases hm : m.index
      · rfl
      · rcases h1 hm with ⟨rows, hv, _, _⟩
        simp [hv, hm] at hload
    by_cases hfiles : d.vec.isSome && d.metaCsv.isSome
    · simp only [hfiles, if_true]
      cases hv : d.vec with
      | none => exact ⟨h1, h2⟩
      | some vf =>
        cases vf with
        | corrupt => exact wf_memEmpty
        | flat xs =>
            constructor
            · intro h; simp [hidx] at h
            · intro _; rfl
        | good rows =>
            by_cases hlen : 0 < rows.length
            · constructor
              · intro _
                exact ⟨rows, by simp [hlen], by simp [hlen], hlen⟩
              · intro h; simp [hlen] at h
            · constructor
              · intro h; simp [hlen, hidx] at h
              · intro _; show rows.length = 0; omega
    · simp only [hfiles, if_false]
      exact ⟨h1, h2⟩
  · simp only [hload, if_false]
    exact ⟨h1, h2⟩

/-! ## build: vector_store.py lines 67-96 -/

/-- Errors surfaced by build: the numpy AxisError from norm(axis=1) on the
1-D array an empty input produces, the numpy ValueError from asarray on
ragged rows, and an injected persistence I/O failure. -/
inductive BuildError
  | axisError
  | valueError
  | ioError
deriving DecidableEq

/-- Injected persistence fault: which of the three writes (np.save,
to_csv, _save_meta) raises, if any. -/
inductive PersistFail
  | noFail
  | atSaveVec
  | atSaveCsv
  | atSaveMeta
deriving DecidableEq

/-- The 1e-12 added to each row norm on line 80. -/
def EPS12 : ℚ := 1 / 1000000000000

/-- np.asarray succeeds on these inputs: all rows share one length. -/
def Rectangular : List (List ℚ) → Bool
  | [] => true
  | r :: rest => rest.all (fun x => x.length == r.length)

/-- Line 81: divide each row by its norm plus 1e-12; the norm values are
taken as an explicit list (floats carry no exact square root). -/
def normalizeRows (nrms : List ℚ) (rows : List (List ℚ)) : List (List ℚ) :=
  List.zipWith (fun nr row => row.map (fun a => a / (nr + EPS12))) nrms rows

structure BuildResult where
  err : Option BuildError
  disk : Disk
  mem : Mem
deriving DecidableEq

/-- Lines 67-96, build over the encoded row vectors embs (the output of
embedder.encode on the concatenated texts): asarray raises ValueError on
ragged rows; norm(axis=1) raises AxisError when embs is empty (a 1-D
array); then np.save, to_csv, the in-memory refresh, and _save_meta run
in that order, each persistence step possibly raising per pf.  On any
raise the state written so far remains. -/
def build (embs : List (List ℚ)) (nrms : List ℚ) (pf : PersistFail)
    (csv : String) (d : Disk) (m : Mem) : BuildResult :=
  if embs.isEmpty then ⟨some BuildError.axisError, d, m⟩
  else if !(Rectangular embs) then ⟨some BuildError.valueError, d, m⟩
  else
    let newVecs := normalizeRows nrms embs
    if pf = PersistFail.atSaveVec then ⟨some BuildError.ioError, d, m⟩
    else
      let d1 : Disk := { d with vec := some (VecFile.good newVecs) }
      if pf = PersistFail.atSaveCsv then ⟨some BuildError.ioError, d1, m⟩
      else
        let d2 : Disk := { d1 with metaCsv := some csv }
        let nN := embs.length
        let dimN := (embs.headD []).length
        let m2 : Mem := { vectors := some newVecs, index := true,
                          dim := some dimN, n := nN }
        if pf = PersistFail.atSaveMeta then ⟨some BuildError.ioError, d2, m2⟩
        else ⟨none, { d2 with metaJson := some (dimN, nN) }, m2⟩

/-! ## embeddings.py: _l2_normalize -/

/-- Squared L2 norm. -/
def normSq (x : List ℚ) : ℚ := (x.map (fun a => a * a)).sum

/-- Lines 16-18 of embeddings.py for a single vector: the denominator is
float(np.linalg.norm(x)) or 1e-12, i.e. the epsilon floor exactly when
the norm is zero.  The norm value is the explicit argument nrm. -/
def l2_denom (nrm : ℚ) : ℚ := if nrm = 0 then EPS12 else nrm

/-- Safe L2 normalization of one vector given its norm value. -/
def l2_normalize (nrm : ℚ) (x : List ℚ) : List ℚ :=
  x.map (fun a => a / l2_denom nrm)

/-- Lines 19-21, the batch branch: each row divided by its own norm with
np.where substituting 1e-12 for zero norms; encode returns this. -/
def l2_normalize_batch (nrms : List ℚ) (rows : List (List ℚ)) :
    List (List ℚ) :=
  List.zipWith l2_normalize nrms rows

/-! ## genai.py: DescriptionGenerator

Python strings are modelled as lists of characters, so that every string
operation is structural and computable in proofs. -/

/-- Character list of a Lean string literal. -/
def chars (s : String) : List Char := s.data

def spaceChar : Char := Char.ofNat 32

def BLURB_MARK : String := "Blurb:"

def SYSTEM_STYLE : String :=
  "Write a concise, vivid, benefit-focused product blurb (45–65 words). Prefer active voice. Start with a hook. Mention material/color if relevant. End with a short use-case. No hashtags. No URLs."

def CONTEXT_PRE : String := "\n\nContext:\n"

def BLURB_SUF : String := "\n\nBlurb:"

/-- Line 75: the full prompt handed to the generation backend. -/
def fullPrompt (p : List Char) : List Char :=
  chars SYSTEM_STYLE ++ chars CONTEXT_PRE ++ p ++ chars BLURB_SUF

/-- Lines 78-79: the fallback returned when no backend is available. -/
def FALLBACK_NO_PIPE : String :=
  "Clean, modern design built for everyday comfort. Durable materials, easy to maintain, and sized to fit most rooms. A versatile piece that elevates your space without fuss."

/-- Lines 93-94: the fallback returned when the backend raises. -/
def FALLBACK_EXC : String :=
  "Comfort-forward build with a refined silhouette and practical finish. Pairs well with modern and minimalist décor for daily use."

def ELLIPSIS : String := "…"

/-- Does pat head-match s. -/
def headMatches : List Char → List Char → Bool
  | [], _ => true
  | _ :: _, [] => false
  | p :: ps, c :: cs => p == c && headMatches ps cs

/-- The suffix after the first occurrence of pat, if pat occurs. -/
def findTail (pat : List Char) : List Char → Option (List Char)
  | [] => if pat.isEmpty then some [] else none
  | c :: cs =>
      if headMatches pat (c :: cs) then some ((c :: cs).drop pat.length)
      else findTail pat cs

/-- Python out.split(pat, 1)[-1]: the text after the first occurrence of
pat, or the whole string when pat does not occur. -/
def afterFirst (s pat : List Char) : List Char :=
  (findTail pat s).getD s

/-- Python str.strip(): drop whitespace from both ends. -/
def stripL (s : List Char) : List Char :=
  ((s.dropWhile Char.isWhitespace).reverse.dropWhile Char.isWhitespace).reverse

/-- The whitespace-separated words of s (textwrap collapses whitespace). -/
def wordsAux : List Char → List Char → List (List Char)
  | acc, [] => if acc.isEmpty then [] else [acc.reverse]
  | acc, c :: cs =>
      if c.isWhitespace then
        if acc.isEmpty then wordsAux [] cs
        else acc.reverse :: wordsAux [] cs
      else wordsAux (c :: acc) cs

def wordsOf (s : List Char) : List (List Char) := wordsAux [] s

/-- Single-space join of a word list. -/
def joinWords : List (List Char) → List Char
  | [] => []
  | [w] => w
  | w :: rest => w ++ spaceChar :: joinWords rest

/-- Greedy fitting of leading words: longest accumulated join such that
the join plus the placeholder stays within width. -/
def takeFit (width : Nat) (ph : List Char) :
    List Char → List (List Char) → List Char
  | acc, [] => acc
  | acc, w :: rest =>
      let cand := if acc.isEmpty then w else acc ++ spaceChar :: w
      if (cand ++ ph).length ≤ width then takeFit width ph cand rest
      else acc

/-- Model of textwrap.shorten: collapse whitespace to single spaces; if
the result fits in width return it, otherwise drop words from the end and
append the placeholder. -/
def pyShorten (s : List Char) (width : Nat) (ph : List Char) : List Char :=
  let ws := wordsOf s
  let joined := joinWords ws
  if joined.length ≤ width then joined
  else
    let r := takeFit width ph [] ws
    if r.isEmpty then stripL ph else r ++ ph

/-- Availability of the generation backend: absent (self.pipe is None),
raising, or producing a generated_text (which, for a real HF pipeline, is
the full prompt followed by the continuation). -/
inductive Pipe
  | unavailable
  | failing
  | ok (generated_text : List Char)

/-- Lines 74-94, generate: fixed fallback when no backend; on a backend
result, keep the text after the first occurrence of the Blurb marker,
strip it, and shorten to 420 characters with an ellipsis placeholder;
fixed second fallback when the backend raises. -/
def generate (b : Pipe) (_prompt : List Char) : List Char :=
  match b with
  | Pipe.unavailable => chars FALLBACK_NO_PIPE
  | Pipe.failing => chars FALLBACK_EXC
  | Pipe.ok out =>
      pyShorten (stripL (afterFirst out (chars BLURB_MARK))) 420
        (chars ELLIPSIS)

/-! ## Support lemmas -/

lemma normSq_nonneg (x : List ℚ) : 0 ≤ normSq x := by
  induction x with
  | nil => simp [normSq]
  | cons a t ih =>
      simp only [normSq, List.map_cons, List.sum_cons]
      have ha : 0 ≤ a * a := mul_self_nonneg a
      have : normSq t = (t.map (fun b => b * b)).sum := rfl
      linarith [this ▸ ih]

lemma normSq_map_div (x : List ℚ) (c : ℚ) :
    normSq (x.map (fun a => a / c)) = normSq x / (c * c) := by
  induction x with
  | nil => simp [normSq]
  | cons a t ih =>
      simp only [normSq, List.map_cons, List.sum_cons] at *
      rw [ih, div_mul_div_comm, add_div]

lemma normSq_eq_zero (x : List ℚ) (h : normSq x = 0) : ∀ a ∈ x, a = 0 := by
  induction x with
  | nil => simp
  | cons a t ih =>
      simp only [normSq, List.map_cons, List.sum_cons] at h
      have ht : 0 ≤ normSq t := normSq_nonneg t
      have ha : 0 ≤ a * a := mul_self_nonneg a
      have htsum : normSq t = (t.map (fun b => b * b)).sum := rfl
      intro b hb
      rcases List.mem_cons.mp hb with hb | hb
      · subst hb
        nlinarith [htsum ▸ ht]
      · exact ih (by nlinarith [htsum ▸ ht]) b hb

lemma wordsAux_mem_ne_nil :
    ∀ (s acc : List Char) (w : List Char), w ∈ wordsAux acc s → w ≠ [] := by
  intro s
  induction s with
  | nil =>
      intro acc w hw
      unfold wordsAux at hw
      by_cases ha : acc.isEmpty
      · simp [ha] at hw
      · simp [ha] at hw
        subst hw
        intro hrev
        rw [List.reverse_eq_nil_iff] at hrev
        rw [hrev] at ha
        simp at ha
  | cons c cs ih =>
      intro acc w hw
      unfold wordsAux at hw
      by_cases hc : c.isWhitespace
      · by_cases ha : acc.isEmpty
        · simp [hc, ha] at hw
          exact ih [] w hw
        · simp [hc, ha] at hw
          rcases hw with hw | hw
          · subst hw
            intro hrev
            rw [List.reverse_eq_nil_iff] at hrev
            rw [hrev] at ha
            simp at ha
          · exact ih [] w hw
      · simp [hc] at hw
        exact ih (c :: acc) w hw

lemma joinWords_ne_nil (ws : List (List Char)) (hne : ws ≠ [])
    (hw : ∀ w ∈ ws, w ≠ []) : joinWords ws ≠ [] := by
  match ws with
  | [] => exact absurd rfl hne
  | [w] =>
      have := hw w (by simp)
      simpa [joinWords] using this
  | w :: v :: rest =>
      show w ++ spaceChar :: joinWords (v :: rest) ≠ []
      intro h
      rcases List.append_eq_nil.mp h with ⟨_, h2⟩
      exact List.cons_ne_nil _ _ h2

lemma pyShorten_ne_nil (s : List Char) (width : Nat) (ph : List Char)
    (hphs : stripL ph ≠ []) (hph : ph ≠ []) (hw : wordsOf s ≠ []) :
    pyShorten s width ph ≠ [] := by
  unfold pyShorten
  by_cases hfit : (joinWords (wordsOf s)).length ≤ width
  · simpa [hfit] using
      joinWords_ne_nil (wordsOf s) hw (fun w hmem => wordsAux_mem_ne_nil s [] w hmem)
  · simp only [hfit, if_false]
    by_cases hr : (takeFit width ph [] (wordsOf s)).isEmpty
    · simpa [hr] using hphs
    · simp only [hr, if_false]
      intro h
      rcases List.append_eq_nil.mp h with ⟨_, h2⟩
      exact hph h2

lemma notBuiltNow_wf (m : Mem) (hwf : WFMem m) :
    notBuiltNow m = true ↔ m.n = 0 := by
  obtain ⟨h1, h2⟩ := hwf
  unfold notBuiltNow
  cases hidx : m.index
  · have hn := h2 hidx
    simp [hn, hidx]
  · rcases h1 hidx with ⟨rows, hv, hn, hpos⟩
    simp [hv, hidx, hn]

lemma search_ok (d : Disk) (m : Mem) (dist : List ℚ → List ℚ → ℚ)
    (q : List ℚ) (top_k : Int) (res : List (Nat × ℚ)) (m1 : Mem)
    (h : search d m dist q top_k = (Except.ok res, m1)) :
    m1 = lazyMem d m ∧
    res = searchCore ((m1.vectors.getD []).map (dist q)) top_k ∧
    notBuiltNow m1 = false := by
  unfold search at h
  by_cases hb : notBuiltNow (lazyMem d m)
  · simp [hb] at h
  · simp only [hb, Bool.false_eq_true, if_false, Prod.mk.injEq] at h
    obtain ⟨hres, hm1⟩ := h
    refine ⟨hm1.symm, ?_, by rw [hm1] at hb; simpa using hb⟩
    rw [← hm1]
    exact (Except.ok.inj hres).symm

lemma search_ok_length (d : Disk) (m : Mem) (dist : List ℚ → List ℚ → ℚ)
    (q : List ℚ) (top_k : Int) (res : List (Nat × ℚ)) (m1 : Mem)
    (hwf : WFMem m)
    (h : search d m dist q top_k = (Except.ok res, m1)) :
    res.length = (min (max 1 top_k) ((m1.n : Int))).toNat ∧ 0 < m1.n := by
  obtain ⟨hm1, hres, hnb⟩ := search_ok d m dist q top_k res m1 h
  have hwf1 : WFMem m1 := hm1 ▸ wf_lazyMem d m hwf
  have hidx : m1.index = true := by
    cases hix : m1.index
    · exfalso
      unfold notBuiltNow at hnb
      simp [hix] at hnb
    · rfl
  rcases hwf1.1 hidx with ⟨rows, hv, hn, hpos⟩
  constructor
  · rw [hres, searchCore_length, hv]
    simp [hn]
  · omega

/-! ## Concrete states used by witnesses and counterexamples -/

def CSV_OLD : String := "catalog-v1"

def CSV_NEW : String := "catalog-v2"

def SAMPLE_OUT : String := "Blurb: Cozy oak chair"

def distZero : List ℚ → List ℚ → ℚ := fun _q _v => 0

/-- A one-row built store on disk. -/
def diskOld : Disk :=
  { vec := some (VecFile.good [[1]]), metaCsv := some CSV_OLD,
    metaJson := some (1, 1) }

/-- The in-memory state after loading diskOld. -/
def memOld : Mem := { vectors := some [[1]], index := true, dim := some 1, n := 1 }

/-- A store whose vectors.npy no longer loads. -/
def diskCorrupt : Disk :=
  { vec := some VecFile.corrupt, metaCsv := some CSV_OLD,
    metaJson := some (1, 1) }

/-- A store with vectors.npy and meta.csv but no meta.json. -/
def diskNoJson : Disk :=
  { vec := some (VecFile.good [[1]]), metaCsv := some CSV_OLD,
    metaJson := none }

/-! ## Claims -/

/-- C2 counterexample: on a built one-row store, search with top_k = 0
returns one pair, which is more than the requested top_k. -/
theorem FR_C2_cex :
    (search diskOld memEmpty distZero [] 0).1 = Except.ok [((0 : Nat), (1 : ℚ))] ∧
    ¬ ((1 : Int) ≤ 0) := by
  constructor
  · norm_num [search, lazyMem, load_if_exists, memEmpty, diskOld,
      notBuiltNow, searchCore, kneighborsAll, distZero,
      List.insertionSort, List.enum, List.enumFrom]
  · omega

/-- C2 amended: a successful search returns exactly
min(max(1, top_k), n) pairs, hence at most n pairs, at most top_k pairs
whenever top_k is at least 1, and exactly n pairs whenever top_k exceeds
the index size n. -/
theorem FR_C2 (d : Disk) (m : Mem) (dist : List ℚ → List ℚ → ℚ)
    (q : List ℚ) (top_k : Int) (res : List (Nat × ℚ)) (m1 : Mem)
    (hwf : WFMem m)
    (h : search d m dist q top_k = (Except.ok res, m1)) :
    res.length = (min (max 1 top_k) ((m1.n : Int))).toNat ∧
    res.length ≤ m1.n ∧
    (1 ≤ top_k → (res.length : Int) ≤ top_k) ∧
    ((m1.n : Int) < top_k → res.length = m1.n) := by
  obtain ⟨hlen, hpos⟩ := search_ok_length d m dist q top_k res m1 hwf h
  refine ⟨hlen, ?_, ?_, ?_⟩
  · rw [hlen]; omega
  · intro h1; rw [hlen]; omega
  · intro hlt; rw [hlen]; omega

/-- Witness for the amended C2 at a concrete one-row store with
top_k = 5. -/
theorem FR_C2_witness :
    [((0 : Nat), (1 : ℚ))].length
        = (min (max 1 (5 : Int)) ((memOld.n : Int))).toNat ∧
    [((0 : Nat), (1 : ℚ))].length ≤ memOld.n ∧
    (1 ≤ (5 : Int) → (([((0 : Nat), (1 : ℚ))].length : Int) ≤ 5)) ∧
    ((memOld.n : Int) < 5 → [((0 : Nat), (1 : ℚ))].length = memOld.n) :=
  FR_C2 diskOld memEmpty distZero [] 5 [(0, 1)] memOld wf_memEmpty (by
    norm_num [search, lazyMem, load_if_exists, memEmpty, memOld, diskOld,
      notBuiltNow, searchCore, kneighborsAll, distZero,
      List.insertionSort, List.enum, List.enumFrom])

/-- C10: a successful search on a (necessarily non-empty) built index
returns at least one pair, whatever top_k is, zero and negative values
included: the effective neighbor count is clamped below to 1. -/
theorem FR_C10 (d : Disk) (m : Mem) (dist : List ℚ → List ℚ → ℚ)
    (q : List ℚ) (top_k : Int) (res : List (Nat × ℚ)) (m1 : Mem)
    (hwf : WFMem m)
    (h : search d m dist q top_k = (Except.ok res, m1)) :
    1 ≤ res.length := by
  obtain ⟨hlen, hpos⟩ := search_ok_length d m dist q top_k res m1 hwf h
  rw [hlen]
  omega

/-- Witness for C10 at a concrete one-row store with negative top_k. -/
theorem FR_C10_witness : 1 ≤ [((0 : Nat), (1 : ℚ))].length :=
  FR_C10 diskOld memEmpty distZero [] (-2) [(0, 1)] memOld wf_memEmpty (by
    norm_num [search, lazyMem, load_if_exists, memEmpty, memOld, diskOld,
      notBuiltNow, searchCore, kneighborsAll, distZero,
      List.insertionSort, List.enum, List.enumFrom])

/-- C3: search raises NotBuiltError exactly when no index exists (neither
persisted on disk nor resident in memory) or when the index size current
after the lazy load attempt is zero; in particular searching before any
build raises NotBuiltError. -/
theorem FR_C3 (d : Disk) (m : Mem) (dist : List ℚ → List ℚ → ℚ)
    (q : List ℚ) (top_k : Int) (hwf : WFMem m) :
    (search d m dist q top_k).1 = Except.error VSErr.notBuiltError ↔
      ((is_built d = false ∧ ¬ (m.vectors.isSome = true ∧ m.index = true)) ∨
        (lazyMem d m).n = 0) := by
  have hwf1 := wf_lazyMem d m hwf
  have hnb := notBuiltNow_wf (lazyMem d m) hwf1
  have herr : (search d m dist q top_k).1 = Except.error VSErr.notBuiltError ↔
      notBuiltNow (lazyMem d m) = true := by
    unfold search
    by_cases hb : notBuiltNow (lazyMem d m) <;> simp [hb]
  rw [herr, hnb]
  constructor
  · intro h; exact Or.inr h
  · rintro (⟨hfiles, hres⟩ | hn)
    · have hm1 : lazyMem d m = m := by
        unfold lazyMem load_if_exists
        by_cases hload : m.vectors.isNone || !m.index
        · have : (d.vec.isSome && d.metaCsv.isSome) = false := hfiles
          simp [hload, this]
        · simp [hload]
      rw [hm1]
      have hidx : m.index = false := by
        cases hix : m.index
        · rfl
        · exfalso
          rcases hwf.1 hix with ⟨rows, hv, _, _⟩
          exact hres ⟨by simp [hv], hix⟩
      exact hwf.2 hidx
    · exact hn

/-- Witness for C3: with no artifacts on disk and a fresh process, search
raises NotBuiltError. -/
theorem FR_C3_witness :
    (search diskEmpty memEmpty distZero [] 5).1
      = Except.error VSErr.notBuiltError :=
  (FR_C3 diskEmpty memEmpty distZero [] 5 wf_memEmpty).mpr
    (Or.inl ⟨rfl, by simp [memEmpty]⟩)

/-- C8: a persisted index whose vector file no longer loads is absorbed:
the load failure resets the in-memory state instead of crashing, and a
subsequent search raises NotBuiltError rather than propagating the load
exception. -/
theorem FR_C8 (d : Disk) (m : Mem) (dist : List ℚ → List ℚ → ℚ)
    (q : List ℚ) (top_k : Int)
    (hvec : d.vec = some VecFile.corrupt) (hcsv : d.metaCsv.isSome = true)
    (hidx : m.index = false) :
    load_if_exists d m = memEmpty ∧
    (search d m dist q top_k).1 = Except.error VSErr.notBuiltError := by
  have hload : load_if_exists d m = memEmpty := by
    unfold load_if_exists
    rw [hvec]
    simp [hcsv]
  refine ⟨hload, ?_⟩
  unfold search lazyMem
  simp [hidx, hload, notBuiltNow, memEmpty]

/-- Witness for C8 at a concrete corrupt store. -/
theorem FR_C8_witness :
    load_if_exists diskCorrupt memEmpty = memEmpty ∧
    (search diskCorrupt memEmpty distZero [] 3).1
      = Except.error VSErr.notBuiltError :=
  FR_C8 diskCorrupt memEmpty distZero [] 3 rfl rfl rfl

/-- C4: build fails with a BuildError whenever the vector collection is
empty (numpy AxisError at the norm step) or the row dimensions are
inconsistent (numpy ValueError at asarray), and in either case nothing is
persisted and the in-memory index is untouched. -/
theorem FR_C4 (embs : List (List ℚ)) (nrms : List ℚ) (pf : PersistFail)
    (csv : String) (d : Disk) (m : Mem)
    (h : embs = [] ∨ Rectangular embs = false) :
    ((build embs nrms pf csv d m).err = some BuildError.axisError ∨
     (build embs nrms pf csv d m).err = some BuildError.valueError) ∧
    (build embs nrms pf csv d m).disk = d ∧
    (build embs nrms pf csv d m).mem = m := by
  rcases h with h | h
  · subst h
    exact ⟨Or.inl rfl, rfl, rfl⟩
  · match embs with
    | [] => simp [Rectangular] at h
    | e :: es =>
        have hne : (e :: es).isEmpty = false := rfl
        simp [build, hne, h]

/-- Witness for C4 at the empty collection. -/
theorem FR_C4_witness :
    ((build [] [] PersistFail.noFail CSV_NEW diskEmpty memEmpty).err
        = some BuildError.axisError ∨
     (build [] [] PersistFail.noFail CSV_NEW diskEmpty memEmpty).err
        = some BuildError.valueError) ∧
    (build [] [] PersistFail.noFail CSV_NEW diskEmpty memEmpty).disk
        = diskEmpty ∧
    (build [] [] PersistFail.noFail CSV_NEW diskEmpty memEmpty).mem
        = memEmpty :=
  FR_C4 [] [] PersistFail.noFail CSV_NEW diskEmpty memEmpty (Or.inl rfl)

/-- C5 counterexample: the raw embedding [0, 0] has norm 0; the epsilon
floor keeps the division defined, but the normalized vector is still the
zero vector, whose L2 norm is 0 and not within 1e-5 of 1 (stated on
squared norms: the squared norm fails to reach (1 - 1e-5)^2). -/
theorem FR_C5_cex :
    l2_normalize 0 [0, 0] = [0, 0] ∧
    normSq (l2_normalize 0 [0, 0]) = 0 ∧
    ¬ (((1 : ℚ) - 1/100000) * ((1 : ℚ) - 1/100000)
        ≤ normSq (l2_normalize 0 [0, 0])) := by
  norm_num [l2_normalize, l2_denom, normSq, EPS12]

/-- C5 amended: encode never divides by zero — the denominator is the
epsilon floor 1e-12 exactly when the norm is zero, hence never zero — and
each returned vector whose raw embedding is nonzero has squared L2 norm
exactly 1 in exact arithmetic; an all-zero raw embedding is returned as
the all-zero vector (norm 0) without raising. -/
theorem FR_C5 (x : List ℚ) (nrm : ℚ) (_h0 : 0 ≤ nrm)
    (hsq : nrm * nrm = normSq x) :
    l2_denom nrm ≠ 0 ∧
    (normSq x ≠ 0 → normSq (l2_normalize nrm x) = 1) ∧
    (normSq x = 0 → l2_normalize nrm x = x.map (fun _a => (0 : ℚ))) := by
  refine ⟨?_, ?_, ?_⟩
  · unfold l2_denom
    by_cases hz : nrm = 0
    · simp [hz, EPS12]
    · simp [hz]
  · intro hnz
    have hnrm : nrm ≠ 0 := by
      intro hz
      rw [hz] at hsq
      exact hnz (by rw [← hsq]; ring)
    unfold l2_normalize l2_denom
    rw [if_neg hnrm, normSq_map_div, ← hsq]
    exact div_self (by intro hz; exact hnz (by rw [← hsq, hz]))
  · intro hz
    have hall := normSq_eq_zero x hz
    unfold l2_normalize
    apply List.map_congr_left
    intro a ha
    rw [hall a ha]
    simp

/-- Witness for the amended C5 at the vector [3, 4] with norm 5. -/
theorem FR_C5_witness : normSq (l2_normalize 5 [3, 4]) = 1 :=
  (FR_C5 [3, 4] 5 (by norm_num) (by norm_num [normSq])).2.1
    (by norm_num [normSq])

/-- C6 counterexample: a store with vectors.npy and meta.csv but no
meta.json (the record holding row count and dimension) still reports
is_built; the claimed equivalence with the metadata record being present
fails. -/
theorem FR_C6_cex :
    is_built diskNoJson = true ∧ diskNoJson.metaJson = none :=
  ⟨rfl, rfl⟩

/-- C6 amended: is_built is true exactly when the vector array file and
the catalog snapshot file (meta.csv) are present; it never consults the
row-count and dimension record meta.json, and it requires nothing in
memory. -/
theorem FR_C6 (d : Disk) :
    (is_built d = true ↔ d.vec.isSome = true ∧ d.metaCsv.isSome = true) ∧
    (∀ j, is_built { d with metaJson := j } = is_built d) := by
  constructor
  · simp [is_built]
  · intro j
    rfl

/-- C7: when persistence fails between the vector-file write and the
catalog-snapshot write, the disk is left with the new vectors.npy next to
the old meta.csv — a mixture of the two builds that is_built still
reports as built — while memory keeps the old index. -/
theorem FR_C7_bug :
    (build [[0], [1]] [0, 1] PersistFail.atSaveCsv CSV_NEW diskOld memOld).err
        = some BuildError.ioError ∧
    (build [[0], [1]] [0, 1] PersistFail.atSaveCsv CSV_NEW diskOld memOld).disk.vec
        = some (VecFile.good (normalizeRows [0, 1] [[0], [1]])) ∧
    (build [[0], [1]] [0, 1] PersistFail.atSaveCsv CSV_NEW diskOld memOld).disk.vec
        ≠ diskOld.vec ∧
    (build [[0], [1]] [0, 1] PersistFail.atSaveCsv CSV_NEW diskOld memOld).disk.metaCsv
        = some CSV_OLD ∧
    is_built (build [[0], [1]] [0, 1] PersistFail.atSaveCsv CSV_NEW diskOld memOld).disk
        = true ∧
    (build [[0], [1]] [0, 1] PersistFail.atSaveCsv CSV_NEW diskOld memOld).mem
        = memOld := by
  refine ⟨rfl, rfl, ?_, rfl, rfl, rfl⟩
  intro h
  have h2 : some (VecFile.good (normalizeRows [0, 1] [[0], [1]]))
      = diskOld.vec := h
  simp only [diskOld, Option.some.injEq, VecFile.good.injEq] at h2
  have hlen := congrArg List.length h2
  simp [normalizeRows] at hlen

set_option maxRecDepth 8000 in
/-- C9 counterexample: a backend whose generated_text is exactly the
prompt (nothing after the Blurb marker) makes generate return the empty
string, refuting that the output is always non-empty. -/
theorem FR_C9_cex :
    generate (Pipe.ok (fullPrompt (chars CSV_OLD))) (chars CSV_OLD) = [] := by
  decide

/-- C9 amended: generate never raises and is total: with no backend it
returns the first fixed fallback, with a raising backend the second fixed
fallback, and with a working backend its result is non-empty whenever the
text after the Blurb marker contains at least one word — but it is the
empty string when nothing (or only whitespace) follows the marker. -/
theorem FR_C9 (b : Pipe) (prompt : List Char) :
    (b = Pipe.unavailable → generate b prompt = chars FALLBACK_NO_PIPE) ∧
    (b = Pipe.failing → generate b prompt = chars FALLBACK_EXC) ∧
    (∀ out, b = Pipe.ok out →
      wordsOf (stripL (afterFirst out (chars BLURB_MARK))) ≠ [] →
      generate b prompt ≠ []) := by
  refine ⟨?_, ?_, ?_⟩
  · intro h; subst h; rfl
  · intro h; subst h; rfl
  · intro out hb hw
    subst hb
    exact pyShorten_ne_nil _ 420 _ (by decide) (by decide) hw

/-- Witness for the amended C9: a backend output with words after the
marker yields a non-empty blurb. -/
theorem FR_C9_witness :
    generate (Pipe.ok (chars SAMPLE_OUT)) (chars CSV_OLD) ≠ [] :=
  (FR_C9 (Pipe.ok (chars SAMPLE_OUT)) (chars CSV_OLD)).2.2
    (chars SAMPLE_OUT) rfl (by decide)

end Furn
